import Mathlib

/-!
Verification of the card-authorization engine.

This file gives a shallow embedding, in Lean, of the decision-relevant code of
the card-authorization repository:

* `DataSecurityService` (PAN validation, masking, recursive sanitization, the
  encryption envelope),
* `RuleEngineService` (rule/condition evaluation, the fuzzy merchant matcher's
  surrounding logic, card sub-conditions, behavioral anomaly checks), and
* `BankingService.transferFunds` (the fund-transfer coordinator),

and proves (or refutes) the specification claims about them.

Modelling conventions:

* JavaScript numbers are modelled as exact rationals (`Rat`); the code under
  analysis only adds, subtracts, multiplies, divides and compares, and no claim
  depends on floating-point rounding.
* JavaScript dynamic values appearing in rule conditions are modelled by the
  inductive type `CondValue`; metadata values by `JsValue`.  Truthiness and the
  dynamic type errors of the source (e.g. calling `.toLowerCase()` on a number)
  are modelled explicitly; fallible code returns `Except String _`.
* External npm library calls (the `natural` / `string-similarity` scorers, the
  node `crypto` AES primitive) are not repository code; they enter the
  embedding as parameters (`MatchModel`, `CbcCipher`) carrying exactly the
  interface and properties the repository relies on.  Everything around them is
  translated from the source.
* Database reads made mid-computation (transaction history, velocity counts)
  are modelled as `Except`-valued fields of an environment record, since the
  corresponding queries can reject at runtime.
-/

namespace CardAuth

/-! ## JavaScript-value helpers -/

/-- JavaScript whitespace (the `\s` class, ASCII part). -/
def isJsSpace (c : Char) : Bool :=
  c == ' ' || c == '\t' || c == '\n' || c == '\r' || c.toNat == 11 || c.toNat == 12

/-- The `\w` character class: ASCII letters, digits and underscore. -/
def isWordChar (c : Char) : Bool :=
  c.isAlphanum || c == '_'

/-- Truthiness of an optional string field (`undefined` and `''` are falsy). -/
def truthyStr : Option String → Bool
  | none => false
  | some s => s ≠ ""

/-- Truthiness of an optional number field (`undefined` and `0` are falsy). -/
def truthyNat : Option Nat → Bool
  | none => false
  | some n => n ≠ 0

/-! ## DataSecurityService: PAN validation, masking, sanitization

Embeds `src/services/DataSecurityService.ts`. -/

/-- The Luhn loop of `isValidPan`: digits are consumed from the rightmost end,
`dbl` is the `shouldDouble` flag (initially `false`), a doubled digit above 9
has 9 subtracted. -/
def luhnSum : List Nat → Bool → Nat
  | [], _ => 0
  | d :: rest, dbl =>
      (if dbl then (if d * 2 > 9 then d * 2 - 9 else d * 2) else d) + luhnSum rest (!dbl)

/-- `DataSecurityService.isValidPan`: the string must match `^\d{13,19}$` and
the Luhn checksum must be divisible by 10. -/
def isValidPan (pan : String) : Bool :=
  13 ≤ pan.length && pan.length ≤ 19 && pan.data.all Char.isDigit &&
    luhnSum (pan.data.reverse.map (fun c => c.toNat - 48)) false % 10 == 0

/-- `DataSecurityService.maskPan`: keep the first 6 and last 4 digits, mask the
middle with `*` (the caller guarantees a valid PAN). -/
def maskPan (pan : String) : String :=
  String.mk (pan.data.take 6 ++ List.replicate (pan.data.length - 10) '*'
    ++ pan.data.drop (pan.data.length - 4))

/-- A JavaScript value, as handled by `secureSanitizeObject`.  `undef` is
`undefined`.  (`NaN` and functions are not modelled; no claim involves them.) -/
inductive JsValue where
  | str (s : String)
  | num (q : Rat)
  | bool (b : Bool)
  | null
  | undef
  | arr (elems : List JsValue)
  | obj (fields : List (String × JsValue))

/-- `typeof v === 'object' && v !== null` — the recursion guard of
`secureSanitizeObject`. -/
def JsValue.isObjLike : JsValue → Bool
  | .obj _ => true
  | .arr _ => true
  | _ => false

/-- `DataSecurityService.PCI_FIELDS`. -/
def pciFields : List String :=
  ["cardNumber", "cvv", "cardholderName", "cardTrack1", "cardTrack2", "pin"]

/-- The `pan`/`cardNumber` branch of `secureSanitizeObject`: a string value
that is a valid PAN is masked; every other value becomes `'[REDACTED]'`.
(For a non-string value the source either fails the PAN regex or throws inside
`maskPan`'s `split` call, and the surrounding `try`/`catch` redacts — both
paths yield `'[REDACTED]'`.) -/
def jsMaskPanValue : JsValue → JsValue
  | .str s => if isValidPan s then .str (maskPan s) else .str "[REDACTED]"
  | _ => .str "[REDACTED]"

/-- The decimal digit characters, for index keys. -/
def digitChar (d : Nat) : Char :=
  match d with
  | 0 => '0' | 1 => '1' | 2 => '2' | 3 => '3' | 4 => '4'
  | 5 => '5' | 6 => '6' | 7 => '7' | 8 => '8' | _ => '9'

/-- Decimal representation of a natural number, most significant digit first. -/
def natDigits (n : Nat) : List Char :=
  if n < 10 then [digitChar n]
  else natDigits (n / 10) ++ [digitChar (n % 10)]
decreasing_by exact Nat.div_lt_self (by omega) (by omega)

/-- A JavaScript array index key, e.g. `"0"`, `"17"`. -/
def natKey (n : Nat) : String := String.mk (natDigits n)

/-- Index keys produced by spreading an array into an object (`{...arr}` gives
keys `"0"`, `"1"`, …). -/
def enumFields : Nat → List JsValue → List (String × JsValue)
  | _, [] => []
  | i, v :: rest => (natKey i, v) :: enumFields (i + 1) rest

mutual

/-- `DataSecurityService.secureSanitizeObject`.  Primitives, `null` and
`undefined` are returned unchanged (the `!obj || typeof obj !== 'object'`
guard).  An object is shallow-copied and each field rewritten.  An array is
turned into a plain object by the `{...obj}` spread: its keys are the index
strings `"0"`, `"1"`, …, which are never PCI field names nor `pan` /
`cardNumber`, so the per-key dispatch on the elements reduces to the
recurse-if-object branch (`sanitizeElems`). -/
def secureSanitizeObject : JsValue → JsValue
  | .obj fields => .obj (sanitizeFields fields)
  | .arr elems => .obj (enumFields 0 (sanitizeElems elems))
  | v => v

/-- One field of the copied object, rewritten as in the `for key in sanitized`
loop.  (`cardNumber` is listed in `PCI_FIELDS`, so the `key === 'cardNumber'`
half of the second branch is unreachable; only `pan` reaches the mask.) -/
def sanitizeField (k : String) (v : JsValue) : JsValue :=
  if pciFields.contains k then .str "[REDACTED]"
  else if k == "cardNumber" || k == "pan" then jsMaskPanValue v
  else if v.isObjLike then secureSanitizeObject v
  else v

def sanitizeFields : List (String × JsValue) → List (String × JsValue)
  | [] => []
  | (k, v) :: rest => (k, sanitizeField k v) :: sanitizeFields rest

def sanitizeElems : List JsValue → List JsValue
  | [] => []
  | v :: rest => (if v.isObjLike then secureSanitizeObject v else v) :: sanitizeElems rest

end

/-- Is this value a string holding a Luhn-valid PAN? -/
def isPanString : JsValue → Bool
  | .str s => isValidPan s
  | _ => false

mutual

/-- No object nested anywhere in `v` has a field named `pan` holding a
Luhn-valid PAN string.  (Such a field is the one shape on which a second
sanitization pass differs from the first: the first pass masks the PAN, the
mask is no longer a valid PAN, and the second pass redacts it.) -/
def panSafe : JsValue → Bool
  | .obj fields => panSafeFields fields
  | .arr elems => panSafeElems elems
  | _ => true

def panSafeFields : List (String × JsValue) → Bool
  | [] => true
  | (k, v) :: rest => !(k == "pan" && isPanString v) && panSafe v && panSafeFields rest

def panSafeElems : List JsValue → Bool
  | [] => true
  | v :: rest => panSafe v && panSafeElems rest

end

/-! Helper lemmas for the sanitizer. -/

theorem digitChar_isDigit (d : Nat) : (digitChar d).isDigit = true := by
  unfold digitChar
  split <;> decide

theorem natDigits_digit (n : Nat) : ∀ c ∈ natDigits n, c.isDigit = true := by
  induction n using Nat.strong_induction_on with
  | _ n ih =>
    rw [natDigits]
    split
    · intro c hc
      simp only [List.mem_singleton] at hc
      subst hc
      exact digitChar_isDigit n
    · intro c hc
      rcases List.mem_append.mp hc with h | h
      · exact ih (n / 10) (Nat.div_lt_self (by omega) (by omega)) c h
      · simp only [List.mem_singleton] at h
        subst h
        exact digitChar_isDigit (n % 10)

/-- An array index key is never one of the sensitive field names. -/
theorem natKey_ne (n : Nat) (w : String) (hw : w ∈ pciFields ∨ w = "cardNumber" ∨ w = "pan") :
    natKey n ≠ w := by
  intro h
  have hdat : natDigits n = w.data := congrArg String.data h
  have hw' : ∃ c, c ∈ w.data ∧ c.isDigit = false := by
    rcases hw with h1 | h2 | h3
    · simp only [pciFields, List.mem_cons, List.not_mem_nil, or_false] at h1
      rcases h1 with rfl | rfl | rfl | rfl | rfl | rfl <;>
        first
          | exact ⟨'c', by decide⟩
          | exact ⟨'p', by decide⟩

    · subst h2; exact ⟨'c', by decide⟩
    · subst h3; exact ⟨'p', by decide⟩
  rcases hw' with ⟨c, hc, hcd⟩
  rw [← hdat] at hc
  rw [natDigits_digit n c hc] at hcd
  exact absurd hcd (by decide)

theorem natKey_not_pci (n : Nat) : pciFields.contains (natKey n) = false := by
  rw [Bool.eq_false_iff]
  intro hc
  have hm : natKey n ∈ pciFields := by
    have := List.elem_iff.mp hc
    simpa using this
  exact natKey_ne n (natKey n) (Or.inl hm) rfl

theorem natKey_not_panName (n : Nat) :
    (natKey n == "cardNumber" || natKey n == "pan") = false := by
  have h1 : natKey n ≠ "cardNumber" := natKey_ne n _ (Or.inr (Or.inl rfl))
  have h2 : natKey n ≠ "pan" := natKey_ne n _ (Or.inr (Or.inr rfl))
  simp [h1, h2]

theorem sanitizeField_pci {k : String} (v : JsValue) (h : pciFields.contains k = true) :
    sanitizeField k v = .str "[REDACTED]" := by
  rw [sanitizeField, if_pos h]

theorem sanitizeField_redacted (k : String) :
    sanitizeField k (.str "[REDACTED]") = .str "[REDACTED]" := by
  rw [sanitizeField]
  split
  · rfl
  · split
    · simp [jsMaskPanValue]
      decide
    · simp [JsValue.isObjLike]

theorem jsMaskPanValue_not_pan {v : JsValue} (hv : isPanString v = false) :
    jsMaskPanValue v = .str "[REDACTED]" := by
  cases v <;> simp_all [jsMaskPanValue, isPanString]

theorem isObjLike_sanitize {v : JsValue} (hv : v.isObjLike = true) :
    (secureSanitizeObject v).isObjLike = true := by
  cases v <;> simp_all [JsValue.isObjLike, secureSanitizeObject]

mutual

/-- A second sanitization pass is the identity on the output of the first, as
long as the input has no `pan` field holding a valid PAN. -/
theorem sanitize_stable (v : JsValue) (h : panSafe v = true) :
    secureSanitizeObject (secureSanitizeObject v) = secureSanitizeObject v := by
  cases v with
  | obj fields =>
      rw [panSafe] at h
      simp only [secureSanitizeObject]
      exact congrArg JsValue.obj (sanitizeFields_stable fields h)
  | arr elems =>
      rw [panSafe] at h
      simp only [secureSanitizeObject]
      exact congrArg JsValue.obj (sanitizeEnum_stable 0 elems h)
  | str s => simp [secureSanitizeObject]
  | num q => simp [secureSanitizeObject]
  | bool b => simp [secureSanitizeObject]
  | null => simp [secureSanitizeObject]
  | undef => simp [secureSanitizeObject]

theorem sanitizeFields_stable (fs : List (String × JsValue)) (h : panSafeFields fs = true) :
    sanitizeFields (sanitizeFields fs) = sanitizeFields fs := by
  match fs with
  | [] => simp [sanitizeFields]
  | (k, v) :: rest =>
      rw [panSafeFields] at h
      simp only [Bool.and_eq_true, Bool.not_eq_true'] at h
      obtain ⟨⟨h1, h2⟩, h3⟩ := h
      simp only [sanitizeFields]
      refine congrArg₂ (fun a b => (k, a) :: b) ?_ (sanitizeFields_stable rest h3)
      -- stability of one rewritten field
      by_cases hk : pciFields.contains k = true
      · rw [sanitizeField_pci v hk, sanitizeField_redacted]
      · by_cases hkp : (k == "cardNumber" || k == "pan") = true
        · have hkpan : k = "pan" := by
            have hkp' : k = "cardNumber" ∨ k = "pan" := by simpa using hkp
            rcases hkp' with hc | hp
            · exact absurd (by rw [hc]; decide) hk
            · exact hp
          subst hkpan
          have hnp : isPanString v = false := by
            simpa using h1
          have e1 : sanitizeField "pan" v = .str "[REDACTED]" := by
            rw [sanitizeField, if_neg hk, if_pos (by decide)]
            exact jsMaskPanValue_not_pan hnp
          rw [e1, sanitizeField_redacted]
        · by_cases ho : v.isObjLike = true
          · have e1 : sanitizeField k v = secureSanitizeObject v := by
              rw [sanitizeField, if_neg hk, if_neg hkp, if_pos ho]
            have e2 : sanitizeField k (secureSanitizeObject v) =
                secureSanitizeObject (secureSanitizeObject v) := by
              rw [sanitizeField, if_neg hk, if_neg hkp, if_pos (isObjLike_sanitize ho)]
            rw [e1, e2, sanitize_stable v h2]
          · have e1 : sanitizeField k v = v := by
              rw [sanitizeField, if_neg hk, if_neg hkp, if_neg ho]
            rw [e1, e1]

theorem sanitizeEnum_stable (j : Nat) (l : List JsValue) (h : panSafeElems l = true) :
    sanitizeFields (enumFields j (sanitizeElems l)) = enumFields j (sanitizeElems l) := by
  match l with
  | [] => simp [sanitizeElems, enumFields, sanitizeFields]
  | v :: rest =>
      rw [panSafeElems] at h
      simp only [Bool.and_eq_true] at h
      obtain ⟨hv, hrest⟩ := h
      simp only [sanitizeElems, enumFields, sanitizeFields]
      refine congrArg₂ (fun a b => (natKey j, a) :: b) ?_ (sanitizeEnum_stable (j + 1) rest hrest)
      by_cases ho : v.isObjLike = true
      · rw [if_pos ho]
        rw [sanitizeField, if_neg (by simp only [natKey_not_pci]; decide),
          if_neg (by simp only [natKey_not_panName]; decide), if_pos (isObjLike_sanitize ho)]
        exact sanitize_stable v hv
      · rw [if_neg ho]
        rw [sanitizeField, if_neg (by simp only [natKey_not_pci]; decide),
          if_neg (by simp only [natKey_not_panName]; decide), if_neg ho]

end

/-- **C4** (counterexample).  Sanitization is *not* idempotent: on
`{pan: "4242424242424242"}` the first pass masks the Luhn-valid PAN to
`"424242******4242"`, the second pass finds that the masked value is no longer
a valid PAN and replaces it with `"[REDACTED]"`. -/
theorem C4_counterexample :
    secureSanitizeObject
        (secureSanitizeObject (JsValue.obj [("pan", JsValue.str "4242424242424242")]))
      ≠ secureSanitizeObject (JsValue.obj [("pan", JsValue.str "4242424242424242")]) := by
  have h1 : secureSanitizeObject (JsValue.obj [("pan", JsValue.str "4242424242424242")])
      = JsValue.obj [("pan", JsValue.str "424242******4242")] := by
    simp [secureSanitizeObject, sanitizeFields, sanitizeField, jsMaskPanValue, isValidPan,
      pciFields, luhnSum, maskPan]
    decide
  rw [h1]
  have h2 : secureSanitizeObject (JsValue.obj [("pan", JsValue.str "424242******4242")])
      = JsValue.obj [("pan", JsValue.str "[REDACTED]")] := by
    simp [secureSanitizeObject, sanitizeFields, sanitizeField, jsMaskPanValue, isValidPan,
      pciFields]
  rw [h2]
  intro h
  injection h with hf
  injection hf with hp _
  injection hp with _ hv
  injection hv with hs
  exact absurd hs (by decide)

/-- **C4** (amended).  `secureSanitizeObject` is idempotent on every value that
has no nested object field named `pan` holding a Luhn-valid PAN string; on such
a field the second pass turns the first pass's mask into `"[REDACTED]"`. -/
theorem C4_sanitize_idempotent_on_panSafe (v : JsValue) (h : panSafe v = true) :
    secureSanitizeObject (secureSanitizeObject v) = secureSanitizeObject v :=
  sanitize_stable v h

/-- **C4** (witness): the amended idempotence theorem applied to a concrete
nested value containing PCI fields, a non-PAN `pan` value and an array. -/
theorem C4_witness :
    secureSanitizeObject
        (secureSanitizeObject (JsValue.obj
          [("cvv", JsValue.str "123"),
           ("pan", JsValue.str "notapan"),
           ("nested", JsValue.obj [("cardNumber", JsValue.str "4242424242424242")]),
           ("list", JsValue.arr [JsValue.num 3, JsValue.obj [("pin", JsValue.str "9999")]])]))
      = secureSanitizeObject (JsValue.obj
          [("cvv", JsValue.str "123"),
           ("pan", JsValue.str "notapan"),
           ("nested", JsValue.obj [("cardNumber", JsValue.str "4242424242424242")]),
           ("list", JsValue.arr [JsValue.num 3, JsValue.obj [("pin", JsValue.str "9999")]])]) :=
  C4_sanitize_idempotent_on_panSafe _ (by decide)

/-! ## DataSecurityService: encryption envelope

Embeds `encrypt` / `decrypt` of `src/services/DataSecurityService.ts`.  The
AES-256-CBC primitive itself is the node `crypto` library, not repository
code; it enters as a `CbcCipher` parameter carrying the two properties the
service relies on: decryption inverts encryption (for the key held by the
service), and the hex-encoded ciphertext contains no `':'`. -/

/-- Hex digit characters, as produced by `Buffer.toString('hex')`. -/
def hexDigitChar (d : Nat) : Char :=
  match d with
  | 0 => '0' | 1 => '1' | 2 => '2' | 3 => '3' | 4 => '4' | 5 => '5' | 6 => '6' | 7 => '7'
  | 8 => '8' | 9 => '9' | 10 => 'a' | 11 => 'b' | 12 => 'c' | 13 => 'd' | 14 => 'e' | _ => 'f'

/-- Value of a hex digit character, as read by `Buffer.from(s, 'hex')`. -/
def hexCharVal (c : Char) : Nat :=
  match c with
  | '0' => 0 | '1' => 1 | '2' => 2 | '3' => 3 | '4' => 4 | '5' => 5 | '6' => 6 | '7' => 7
  | '8' => 8 | '9' => 9 | 'a' => 10 | 'b' => 11 | 'c' => 12 | 'd' => 13 | 'e' => 14 | 'f' => 15
  | _ => 0

def byteToHex (b : Nat) : List Char := [hexDigitChar (b / 16), hexDigitChar (b % 16)]

/-- `buffer.toString('hex')` over a byte list. -/
def bytesToHex : List Nat → List Char
  | [] => []
  | b :: rest => byteToHex b ++ bytesToHex rest

/-- `Buffer.from(hexString, 'hex')`: consume the characters two at a time. -/
def hexToBytes : List Char → List Nat
  | c1 :: c2 :: rest => (16 * hexCharVal c1 + hexCharVal c2) :: hexToBytes rest
  | _ => []

/-- JavaScript `String.prototype.split(sep)` for a one-character separator. -/
def splitOnChar (sep : Char) : List Char → List (List Char)
  | [] => [[]]
  | c :: rest =>
      if c == sep then [] :: splitOnChar sep rest
      else
        match splitOnChar sep rest with
        | [] => [[c]]
        | g :: gs => (c :: g) :: gs

theorem hexCharVal_hexDigitChar : ∀ d < 16, hexCharVal (hexDigitChar d) = d := by decide

theorem hexDigitChar_ne_colon (d : Nat) : hexDigitChar d ≠ ':' := by
  unfold hexDigitChar
  split <;> decide

theorem hexToBytes_bytesToHex (bs : List Nat) (h : ∀ b ∈ bs, b < 256) :
    hexToBytes (bytesToHex bs) = bs := by
  induction bs with
  | nil => rfl
  | cons b rest ih =>
      have hb : b < 256 := h b (List.mem_cons_self _ _)
      have hdiv : b / 16 < 16 := by omega
      have hmod : b % 16 < 16 := by omega
      show hexToBytes (hexDigitChar (b / 16) :: hexDigitChar (b % 16) :: bytesToHex rest)
          = b :: rest
      rw [hexToBytes, hexCharVal_hexDigitChar _ hdiv, hexCharVal_hexDigitChar _ hmod,
        ih (fun x hx => h x (List.mem_cons_of_mem _ hx))]
      congr 1
      omega

theorem bytesToHex_no_colon (bs : List Nat) : ':' ∉ bytesToHex bs := by
  induction bs with
  | nil => simp [bytesToHex]
  | cons b rest ih =>
      simp only [bytesToHex, byteToHex, List.cons_append, List.nil_append, List.mem_cons]
      push_neg
      exact ⟨(hexDigitChar_ne_colon _).symm, (hexDigitChar_ne_colon _).symm, ih⟩

theorem splitOnChar_ne_nil (sep : Char) (l : List Char) : splitOnChar sep l ≠ [] := by
  cases l with
  | nil => simp [splitOnChar]
  | cons c rest =>
      rw [splitOnChar]
      split
      · simp
      · split <;> simp

theorem splitOnChar_no_sep (sep : Char) (l : List Char) (h : sep ∉ l) :
    splitOnChar sep l = [l] := by
  induction l with
  | nil => rfl
  | cons c rest ih =>
      have hc : ¬(c == sep) = true := by
        simp only [List.mem_cons] at h
        simp only [beq_iff_eq]
        exact fun hh => h (Or.inl hh.symm)
      rw [splitOnChar, if_neg hc, ih (fun hh => h (List.mem_cons_of_mem _ hh))]

theorem splitOnChar_append (sep : Char) (A B : List Char) (hA : sep ∉ A) :
    splitOnChar sep (A ++ sep :: B) = A :: splitOnChar sep B := by
  induction A with
  | nil => simp [splitOnChar]
  | cons a A' ih =>
      have ha : ¬(a == sep) = true := by
        simp only [List.mem_cons] at hA
        simp only [beq_iff_eq]
        exact fun hh => hA (Or.inl hh.symm)
      rw [List.cons_append, splitOnChar, if_neg ha,
        ih (fun hh => hA (List.mem_cons_of_mem _ hh))]

/-- The AES-256-CBC primitive (node `crypto`, external to the repository), for
the fixed service key: `enc iv text` is the hex-encoded ciphertext
(`cipher.update(text,'utf8','hex') + cipher.final('hex')`), `dec iv hexCt` the
decryption.  The two fields of evidence are the library's contract: decryption
inverts encryption under the same IV, and hex output never contains `':'`. -/
structure CbcCipher where
  enc : List Nat → String → String
  dec : List Nat → String → String
  dec_enc : ∀ iv text, dec iv (enc iv text) = text
  enc_no_colon : ∀ iv text, ':' ∉ (enc iv text).data

/-- `DataSecurityService.encrypt`: a random 16-byte IV is drawn per call (here
a parameter), and the envelope is `hex(iv) + ':' + hex(ciphertext)`. -/
def encrypt (c : CbcCipher) (iv : List Nat) (text : String) : String :=
  String.mk (bytesToHex iv) ++ ":" ++ c.enc iv text

/-- `DataSecurityService.decrypt`: split on `':'`, fail closed unless there are
exactly two parts, then rebuild the IV from hex and decipher. -/
def decrypt (c : CbcCipher) (encryptedText : String) : Except String String :=
  if (splitOnChar ':' encryptedText.data).length ≠ 2 then
    .error "Invalid encrypted data format"
  else
    .ok (c.dec (hexToBytes ((splitOnChar ':' encryptedText.data).getD 0 []))
      (String.mk ((splitOnChar ':' encryptedText.data).getD 1 [])))

theorem string_mk_data (s : String) : String.mk s.data = s := rfl

theorem encrypt_data (c : CbcCipher) (iv : List Nat) (text : String) :
    (encrypt c iv text).data = bytesToHex iv ++ ':' :: (c.enc iv text).data := by
  simp [encrypt, String.data_append]

/-- **C7**.  For every cipher primitive honouring its contract: decrypting an
encryption returns the original plaintext (for any non-empty plaintext and any
byte-valued IV), and decrypt fails closed with `'Invalid encrypted data
format'` on every input that does not split into exactly two `':'`-separated
parts. -/
theorem C7_encrypt_decrypt (c : CbcCipher) :
    (∀ (iv : List Nat) (text : String), text ≠ "" → (∀ b ∈ iv, b < 256) →
        decrypt c (encrypt c iv text) = .ok text) ∧
    (∀ s : String, (splitOnChar ':' s.data).length ≠ 2 →
        decrypt c s = .error "Invalid encrypted data format") := by
  constructor
  · intro iv text _ hiv
    have hsplit : splitOnChar ':' (encrypt c iv text).data
        = [bytesToHex iv, (c.enc iv text).data] := by
      rw [encrypt_data, splitOnChar_append _ _ _ (bytesToHex_no_colon iv),
        splitOnChar_no_sep _ _ (c.enc_no_colon iv text)]
    rw [decrypt, hsplit]
    rw [if_neg (by simp)]
    show Except.ok (c.dec (hexToBytes (bytesToHex iv)) (String.mk (c.enc iv text).data))
        = Except.ok text
    rw [hexToBytes_bytesToHex iv hiv, string_mk_data, c.dec_enc]
  · intro s hs
    rw [decrypt, if_pos hs]

/-- A concrete cipher honouring the `CbcCipher` contract, used to witness
`C7_encrypt_decrypt`: every `':'` in the plaintext is escaped as `"@c"` and
every `'@'` as `"@a"`. -/
def escChar (c : Char) : List Char :=
  if c == ':' then ['@', 'c'] else if c == '@' then ['@', 'a'] else [c]

def escapeChars : List Char → List Char
  | [] => []
  | c :: rest => escChar c ++ escapeChars rest

def unescapeChars : List Char → List Char
  | [] => []
  | [c] => if c == '@' then [] else [c]
  | c :: c2 :: rest2 =>
      if c == '@' then (if c2 == 'c' then ':' else '@') :: unescapeChars rest2
      else c :: unescapeChars (c2 :: rest2)

theorem unescape_escape (l : List Char) : unescapeChars (escapeChars l) = l := by
  induction l with
  | nil => rfl
  | cons c rest ih =>
      rw [escapeChars]
      by_cases hc : c = ':'
      · subst hc
        rw [show escChar ':' = ['@', 'c'] from rfl]
        show unescapeChars ('@' :: 'c' :: escapeChars rest) = ':' :: rest
        rw [unescapeChars, if_pos (by decide), if_pos (by decide), ih]
      · by_cases ha : c = '@'
        · subst ha
          rw [show escChar '@' = ['@', 'a'] from rfl]
          show unescapeChars ('@' :: 'a' :: escapeChars rest) = '@' :: rest
          rw [unescapeChars, if_pos (by decide), if_neg (by decide), ih]
        · have h1 : ¬(c == ':') = true := by simpa using hc
          have h2 : ¬(c == '@') = true := by simpa using ha
          rw [show escChar c = [c] from by rw [escChar, if_neg h1, if_neg h2]]
          show unescapeChars (c :: escapeChars rest) = c :: rest
          rcases hE : escapeChars rest with _ | ⟨d, ds⟩
          · rw [hE] at ih
            obtain rfl : rest = [] := ih.symm
            rw [unescapeChars, if_neg h2]
          · rw [unescapeChars, if_neg h2, ← hE, ih]

theorem escape_no_colon (l : List Char) : ':' ∉ escapeChars l := by
  induction l with
  | nil => simp [escapeChars]
  | cons c rest ih =>
      rw [escapeChars]
      intro hm
      rcases List.mem_append.mp hm with h | h
      · by_cases hc : (c == ':') = true
        · rw [escChar, if_pos hc] at h
          exact absurd h (by decide)
        · by_cases ha : (c == '@') = true
          · rw [escChar, if_neg hc, if_pos ha] at h
            exact absurd h (by decide)
          · rw [escChar, if_neg hc, if_neg ha] at h
            simp only [List.mem_singleton] at h
            subst h
            exact hc (by decide)
      · exact ih h

def witnessCipher : CbcCipher where
  enc := fun _ text => String.mk (escapeChars text.data)
  dec := fun _ y => String.mk (unescapeChars y.data)
  dec_enc := by
    intro iv text
    show String.mk (unescapeChars (escapeChars text.data)) = text
    rw [unescape_escape, string_mk_data]
  enc_no_colon := by
    intro iv text
    exact escape_no_colon text.data

/-- **C7** (witness): the round trip at IV `[0, 255]` and plaintext
`"top:secret"`, and the fail-closed branch at the separator-free input
`"00ff"`. -/
theorem C7_witness :
    decrypt witnessCipher (encrypt witnessCipher [0, 255] "top:secret") = .ok "top:secret" ∧
    decrypt witnessCipher "00ff" = .error "Invalid encrypted data format" :=
  ⟨(C7_encrypt_decrypt witnessCipher).1 [0, 255] "top:secret" (by decide) (by decide),
   (C7_encrypt_decrypt witnessCipher).2 "00ff" (by decide)⟩

/-! ## BankingService.transferFunds

Embeds `BankingService.transferFunds`.  The account store is a list of
`(accountId, balance)` rows; `findOne` is the first row with the given id and
`save` rewrites that row.  The source reads the source account (locked),
checks the balance, reads the destination account (locked), mutates both
in-memory entities and saves source first, destination second; every failure
path rolls the unit of work back, leaving the store unchanged.  (The two
`findOne` calls return independent snapshots, so when source = destination the
second save wins — exactly the saved-last-wins order below.) -/

/-- The account store: rows of `(accountId, balance)`. -/
abbrev Bank := List (String × Rat)

/-- `findOne({where: {id}})`: the balance of the first row with this id. -/
def findOneBalance (accountId : String) : Bank → Option Rat
  | [] => none
  | (k, b) :: rest => if k = accountId then some b else findOneBalance accountId rest

/-- `queryRunner.manager.save(account)`: rewrite the row with this id. -/
def updateBalance (bank : Bank) (accountId : String) (newBalance : Rat) : Bank :=
  bank.map (fun p => if p.1 = accountId then (p.1, newBalance) else p)

/-- `BankingService.transferFunds`: returns the boolean result and the
committed (or rolled-back) store. -/
def transferFunds (fromAccountId toAccountId : String) (amount : Rat) (bank : Bank) :
    Bool × Bank :=
  match findOneBalance fromAccountId bank with
  | none => (false, bank)
  | some sourceBalance =>
    if sourceBalance < amount then (false, bank)
    else
      match findOneBalance toAccountId bank with
      | none => (false, bank)
      | some destBalance =>
          (true, updateBalance (updateBalance bank fromAccountId (sourceBalance - amount))
            toAccountId (destBalance + amount))

theorem findOne_updateBalance_self (bank : Bank) (a : String) (v : Rat) :
    findOneBalance a (updateBalance bank a v) = (findOneBalance a bank).map (fun _ => v) := by
  induction bank with
  | nil => rfl
  | cons p rest ih =>
      obtain ⟨k, b⟩ := p
      by_cases hk : k = a
      · rw [updateBalance, List.map_cons, if_pos hk]
        rw [findOneBalance, if_pos hk, findOneBalance, if_pos hk]
        rfl
      · rw [updateBalance, List.map_cons, if_neg hk]
        rw [findOneBalance, if_neg hk, findOneBalance, if_neg hk]
        exact ih

theorem findOne_updateBalance_ne (bank : Bank) {a b : String} (v : Rat) (hab : a ≠ b) :
    findOneBalance a (updateBalance bank b v) = findOneBalance a bank := by
  induction bank with
  | nil => rfl
  | cons p rest ih =>
      obtain ⟨k, c⟩ := p
      by_cases hk : k = b
      · subst hk
        rw [updateBalance, List.map_cons, if_pos rfl]
        rw [findOneBalance, if_neg (fun h => hab h.symm),
          findOneBalance, if_neg (fun h => hab h.symm)]
        exact ih
      · rw [updateBalance, List.map_cons, if_neg hk]
        rw [findOneBalance, findOneBalance]
        by_cases hka : k = a
        · rw [if_pos hka, if_pos hka]
        · rw [if_neg hka, if_neg hka]
          exact ih

/-- **C6**.  Whenever the source account exists with a balance strictly below
the transfer amount, `transferFunds` returns `false` and the store is
unchanged — no balance on either account is mutated. -/
theorem C6_insufficient_funds_no_effect (fromAccountId toAccountId : String) (amount : Rat)
    (bank : Bank) (sourceBalance : Rat)
    (hsrc : findOneBalance fromAccountId bank = some sourceBalance)
    (hlt : sourceBalance < amount) :
    transferFunds fromAccountId toAccountId amount bank = (false, bank) := by
  rw [transferFunds, hsrc]
  simp only [if_pos hlt]

/-- **C6** (witness): source balance 100, transfer 150 → `false`, both balances
unchanged. -/
theorem C6_witness :
    transferFunds "acct-A" "acct-B" 150 [("acct-A", 100), ("acct-B", 0)]
      = (false, [("acct-A", 100), ("acct-B", 0)]) :=
  C6_insufficient_funds_no_effect "acct-A" "acct-B" 150 [("acct-A", 100), ("acct-B", 0)] 100
    (by decide) (by norm_num)

/-- **C5** (counterexample).  The claim fails for negative amounts: the source
has no `amount > 0` guard, and `0 < -50` being false the insufficient-funds
check passes, so transferring `-50` between two zero-balance accounts succeeds
and leaves the destination at `-50 < 0`. -/
theorem C5_counterexample :
    (transferFunds "acct-A" "acct-B" (-50) [("acct-A", 0), ("acct-B", 0)]).1 = true ∧
    findOneBalance "acct-B"
        (transferFunds "acct-A" "acct-B" (-50) [("acct-A", 0), ("acct-B", 0)]).2
      = some (-50) ∧
    ((-50 : Rat) < 0) := by
  refine ⟨?_, ?_, by norm_num⟩
  · simp [transferFunds, findOneBalance, updateBalance]
    norm_num
  · simp [transferFunds, findOneBalance, updateBalance]

/-- **C5** (amended).  For every *non-negative* amount, a transfer between two
accounts whose balances are non-negative leaves both balances non-negative,
whether it succeeds or fails. -/
theorem C5_no_negative_balance (fromAccountId toAccountId : String) (amount : Rat)
    (bank : Bank) (sourceBalance destBalance : Rat)
    (hsrc : findOneBalance fromAccountId bank = some sourceBalance)
    (hdst : findOneBalance toAccountId bank = some destBalance)
    (hs0 : 0 ≤ sourceBalance) (hd0 : 0 ≤ destBalance) (ha0 : 0 ≤ amount) :
    ∃ s' d',
      findOneBalance fromAccountId (transferFunds fromAccountId toAccountId amount bank).2
          = some s' ∧
      findOneBalance toAccountId (transferFunds fromAccountId toAccountId amount bank).2
          = some d' ∧
      0 ≤ s' ∧ 0 ≤ d' := by
  rw [transferFunds, hsrc]
  by_cases hlt : sourceBalance < amount
  · simp only [if_pos hlt]
    exact ⟨sourceBalance, destBalance, hsrc, hdst, hs0, hd0⟩
  · simp only [if_neg hlt]
    rw [hdst]
    have hge : amount ≤ sourceBalance := le_of_not_lt hlt
    by_cases heq : fromAccountId = toAccountId
    · -- same account: the second save wins, final balance destBalance + amount
      subst heq
      have hsd : sourceBalance = destBalance := by
        rw [hsrc] at hdst
        exact Option.some.inj hdst
      refine ⟨destBalance + amount, destBalance + amount, ?_, ?_, ?_, ?_⟩ <;>
        first
          | (rw [findOne_updateBalance_self, findOne_updateBalance_self, hsrc]; rfl)
          | positivity
    · refine ⟨sourceBalance - amount, destBalance + amount, ?_, ?_, ?_, ?_⟩
      · rw [findOne_updateBalance_ne _ _ heq, findOne_updateBalance_self, hsrc]
        rfl
      · rw [findOne_updateBalance_self, findOne_updateBalance_ne _ _ (fun h => heq h.symm), hdst]
        rfl
      · linarith
      · positivity

/-- **C5** (witness): the amended theorem at a successful concrete transfer:
60 moved from a 100-balance account to a 5-balance account. -/
theorem C5_witness :
    ∃ s' d',
      findOneBalance "acct-A" (transferFunds "acct-A" "acct-B" 60
          [("acct-A", 100), ("acct-B", 5)]).2 = some s' ∧
      findOneBalance "acct-B" (transferFunds "acct-A" "acct-B" 60
          [("acct-A", 100), ("acct-B", 5)]).2 = some d' ∧
      0 ≤ s' ∧ 0 ≤ d' :=
  C5_no_negative_balance "acct-A" "acct-B" 60 [("acct-A", 100), ("acct-B", 5)] 100 5
    (by simp [findOneBalance]) (by simp [findOneBalance]) (by norm_num) (by norm_num)
    (by norm_num)

/-! ## RuleEngineService: data model

Embeds the inputs of `src/services/RuleEngineService.ts` (`Rule` from
`src/models/Rule.ts`, `Transaction` from `src/models/Transaction.ts`, the
`RuleResult` interface).  Persistence-only columns that the engine never reads
(descriptions, audit timestamps, status enums) are omitted. -/

/-- A JSON value stored in a rule's `conditions` column. -/
inductive CondValue where
  | str (s : String)
  | num (q : Rat)
  | bool (b : Bool)
  | null
  | arr (elems : List CondValue)
  | obj (fields : List (String × CondValue))

/-- JavaScript truthiness of a condition value. -/
def CondValue.truthy : CondValue → Bool
  | .str s => s ≠ ""
  | .num q => q ≠ 0
  | .bool b => b
  | .null => false
  | .arr _ => true
  | .obj _ => true

/-- JavaScript strict equality `===` (also `Array.prototype.includes`'s
SameValueZero) restricted to the shapes the engine compares.  Arrays and
objects compare by reference in JavaScript; two separately stored values are
distinct references, so those comparisons are `false` here. -/
def CondValue.beq : CondValue → CondValue → Bool
  | .str a, .str b => a == b
  | .num a, .num b => a == b
  | .bool a, .bool b => a == b
  | .null, .null => true
  | _, _ => false

instance : BEq CondValue := ⟨CondValue.beq⟩

/-- `Array.isArray` refinement. -/
def CondValue.asArray : CondValue → Option (List CondValue)
  | .arr l => some l
  | _ => none

/-- Field access `v.key` on a condition value (`undefined` when absent or when
`v` is not an object). -/
def CondValue.getField : CondValue → String → Option CondValue
  | .obj fields, k => (fields.find? (fun p => p.1 == k)).map (fun p => p.2)
  | _, _ => none

/-- Strip of JavaScript whitespace from both ends (`String.prototype.trim`). -/
def jsTrim (l : List Char) : List Char :=
  ((l.dropWhile isJsSpace).reverse.dropWhile isJsSpace).reverse

/-- Numeric value of a digit run, most significant first. -/
def digitsToNat (l : List Char) : Nat :=
  l.foldl (fun acc c => acc * 10 + (c.toNat - 48)) 0

/-- Parse `digits[.digits]` (at least one digit somewhere). -/
def parseUnsigned (l : List Char) : Option Rat :=
  let intPart := l.takeWhile Char.isDigit
  match l.drop intPart.length with
  | [] => if intPart.isEmpty then none else some (digitsToNat intPart : Rat)
  | '.' :: frac =>
      if frac.all Char.isDigit && !(intPart.isEmpty && frac.isEmpty) then
        some ((digitsToNat intPart : Rat) + (digitsToNat frac : Rat) / (10 : Rat) ^ frac.length)
      else none
  | _ => none

/-- JavaScript `ToNumber` on a string: trimmed-empty is `0`, otherwise an
optionally signed decimal numeral; `none` models `NaN`.  (Exponents, hex and
`Infinity` forms are modelled as `NaN`; no rule in the claims uses them.) -/
def jsStringToNumber (s : String) : Option Rat :=
  match jsTrim s.data with
  | [] => some 0
  | '-' :: rest => (parseUnsigned rest).map Neg.neg
  | '+' :: rest => parseUnsigned rest
  | t => parseUnsigned t

/-- JavaScript `ToNumber` of a condition value; `none` models `NaN`.  Array and
object `ToPrimitive` conversions are modelled as `NaN`. -/
def jsToNumber : CondValue → Option Rat
  | .num q => some q
  | .bool b => some (if b then 1 else 0)
  | .null => some 0
  | .str s => jsStringToNumber s
  | .arr _ => none
  | .obj _ => none

/-- `a > v` with JavaScript numeric coercion (`false` on `NaN`). -/
def jsGtNum (a : Rat) (v : CondValue) : Bool :=
  match jsToNumber v with
  | some b => decide (b < a)
  | none => false

/-- `a < v` with JavaScript numeric coercion (`false` on `NaN`). -/
def jsLtNum (a : Rat) (v : CondValue) : Bool :=
  match jsToNumber v with
  | some b => decide (a < b)
  | none => false

/-- `a >= v` with JavaScript numeric coercion (`false` on `NaN`). -/
def jsGeNum (a : Rat) (v : CondValue) : Bool :=
  match jsToNumber v with
  | some b => decide (b ≤ a)
  | none => false

/-- `a <= v` with JavaScript numeric coercion (`false` on `NaN`). -/
def jsLeNum (a : Rat) (v : CondValue) : Bool :=
  match jsToNumber v with
  | some b => decide (a ≤ b)
  | none => false

/-- `RuleAction` from `src/models/Rule.ts`. -/
inductive RuleAction where
  | approve
  | decline
  | review
  | sweep
  | stepUpAuth
  deriving DecidableEq

/-- A rule, as read by the engine.  The source checks
`!rule.conditions || Object.keys(rule.conditions).length === 0`; both a missing
and an empty conditions map take that branch, so a missing map is modelled as
the empty list. -/
structure Rule where
  id : String
  name : String
  action : RuleAction
  priority : Int
  conditions : List (String × CondValue)
  isActive : Bool := true

/-- The engine's per-rule output.  `evaluationTimeMs` is wall-clock latency;
the embedding is deterministic, so it is modelled as `0`. -/
structure RuleResult where
  ruleId : String
  ruleName : String
  action : RuleAction
  matched : Bool
  conditions : List (String × CondValue)
  evaluationTimeMs : Nat

/-- A `Date` is modelled by the observations the engine makes of it:
`getDay()` and `getHours()`. -/
structure JsDate where
  dayOfWeek : Nat
  hours : Nat
  deriving DecidableEq

/-- The current calendar month, as read from `new Date()` in the card expiry
check (`getFullYear()`, `getMonth() + 1`). -/
structure YearMonth where
  year : Nat
  month : Nat

/-- The enrichment blob's fields read by `prepareTransactionData`. -/
structure EnrichedData where
  merchantName : Option String := none
  merchantId : Option String := none
  merchantCategory : Option String := none
  merchantCategoryCode : Option String := none
  location : Option String := none
  countryCode : Option String := none

/-- A transaction, restricted to the fields the engine reads. -/
structure Transaction where
  transactionId : String
  accountId : String
  amount : Rat
  currency : String
  merchantName : String
  merchantId : Option String := none
  merchantCategory : Option String := none
  merchantCategoryCode : Option String := none
  location : Option String := none
  countryCode : Option String := none
  paymentToken : Option String := none
  paymentMethod : Option String := none
  cardBrand : Option String := none
  cardLast4 : Option String := none
  cardExpiryMonth : Option Nat := none
  cardExpiryYear : Option Nat := none
  cardFingerprint : Option String := none
  enrichedData : Option EnrichedData := none
  createdAt : JsDate := ⟨0, 0⟩

/-- The flattened view built by `prepareTransactionData`. -/
structure TxData where
  transactionId : String
  accountId : String
  amount : Rat
  currency : String
  merchantName : String
  merchantId : Option String
  merchantCategory : Option String
  merchantCategoryCode : Option String
  location : Option String
  countryCode : Option String
  paymentToken : Option String
  paymentMethod : Option String
  cardBrand : Option String
  cardLast4 : Option String
  cardExpiryMonth : Option Nat
  cardExpiryYear : Option Nat
  cardFingerprint : Option String
  dayOfWeek : Nat
  hourOfDay : Nat
  isEnriched : Bool

/-- `a || b` where `a` is an optional enrichment string and `b` a required
transaction string. -/
def jsOrStr (a : Option String) (b : String) : String :=
  match a with
  | some s => if s = "" then b else s
  | none => b

/-- `a || b` where both sides are optional strings. -/
def jsOrOpt (a b : Option String) : Option String :=
  match a with
  | some s => if s = "" then b else some s
  | none => b

/-- `RuleEngineService.prepareTransactionData`: enriched fields win when
truthy, raw fields otherwise; `isEnriched` records `!!transaction.enrichedData`. -/
def prepareTransactionData (tx : Transaction) : TxData :=
  let e := tx.enrichedData.getD {}
  { transactionId := tx.transactionId
    accountId := tx.accountId
    amount := tx.amount
    currency := tx.currency
    merchantName := jsOrStr e.merchantName tx.merchantName
    merchantId := jsOrOpt e.merchantId tx.merchantId
    merchantCategory := jsOrOpt e.merchantCategory tx.merchantCategory
    merchantCategoryCode := jsOrOpt e.merchantCategoryCode tx.merchantCategoryCode
    location := jsOrOpt e.location tx.location
    countryCode := jsOrOpt e.countryCode tx.countryCode
    paymentToken := tx.paymentToken
    paymentMethod := tx.paymentMethod
    cardBrand := tx.cardBrand
    cardLast4 := tx.cardLast4
    cardExpiryMonth := tx.cardExpiryMonth
    cardExpiryYear := tx.cardExpiryYear
    cardFingerprint := tx.cardFingerprint
    dayOfWeek := tx.createdAt.dayOfWeek
    hourOfDay := tx.createdAt.hours
    isEnriched := tx.enrichedData.isSome }

/-! ### `cleanMerchantName`

The regex replacement pipeline of `RuleEngineService.cleanMerchantName`, step
by step.  Each regex is rendered as the deterministic scan it performs. -/

/-- The payment-processor markers of
`/^sq\*|^sq |^SQ\*|^SQ |^txn\*|^amzn\*|^pmt\*|^pp\*|^pypl\*/i`, lowercased, in
source order (the regex is case-insensitive and anchored; only the first
matching alternative is removed, once). -/
def processorTags : List String := ["sq*", "sq ", "txn*", "amzn*", "pmt*", "pp*", "pypl*"]

/-- Remove one leading processor marker, case-insensitively. -/
def stripProcessorTag (l : List Char) : List Char :=
  match processorTags.find? (fun t => (l.take t.length).map Char.toLower == t.data) with
  | some t => l.drop t.length
  | none => l

/-- `^\d+\s+` → `''`: remove a leading digit run followed by a whitespace run
(anchored, so the `g` flag changes nothing). -/
def stripLeadingNum (l : List Char) : List Char :=
  let ds := l.takeWhile Char.isDigit
  if ds.isEmpty then l
  else
    let rest := l.drop ds.length
    let sp := rest.takeWhile isJsSpace
    if sp.isEmpty then l else rest.drop sp.length

/-- The company-type words of `/\bINC\b|\bLLC\b|\bLTD\b|\bCORP\b|\bCO\b/gi`,
lowercased, in source order. -/
def companyWords : List String := ["inc", "llc", "ltd", "corp", "co"]

/-- Does the word `w` match case-insensitively at the head of `l`, with a word
boundary right after it? -/
def wordAt (w : String) (l : List Char) : Bool :=
  (l.take w.length).map Char.toLower == w.data &&
    (match l.drop w.length with
     | [] => true
     | c :: _ => !isWordChar c)

/-- The length of the first company word matching at this position. -/
def matchCompanyWord (l : List Char) : Option Nat :=
  (companyWords.find? (fun w => wordAt w l)).map (fun w => w.length)

/-- One left-to-right pass of the word-boundary replacement
`/\bINC\b|\bLLC\b|\bLTD\b|\bCORP\b|\bCO\b/gi` → `''`.  `atBoundary` holds when
the previous character of the original string is a non-word character (or the
start); after a removed word the previous character is the word's final
letter, so scanning resumes off-boundary.  Recursion is on a fuel bounded by
the list length (each step consumes at least one character), keeping the
definition kernel-reducible. -/
def stripCompanyWordsAux : Nat → Bool → List Char → List Char
  | 0, _, l => l
  | _, _, [] => []
  | fuel + 1, atBoundary, c :: rest =>
      if atBoundary then
        match matchCompanyWord (c :: rest) with
        | some n => stripCompanyWordsAux fuel false ((c :: rest).drop n)
        | none => c :: stripCompanyWordsAux fuel (!isWordChar c) rest
      else c :: stripCompanyWordsAux fuel (!isWordChar c) rest

def stripCompanyWords (atBoundary : Bool) (l : List Char) : List Char :=
  stripCompanyWordsAux l.length atBoundary l

/-- `/\d{4,}$/g` → `''`: remove the trailing digit run when it has at least 4
digits. -/
def stripTrailingDigits (l : List Char) : List Char :=
  let ds := (l.reverse.takeWhile Char.isDigit).length
  if 4 ≤ ds then l.take (l.length - ds) else l

/-- Does `l` match `\d+[a-z]*$` in full (letters case-insensitive)? -/
def dashNumTail (l : List Char) : Bool :=
  let ds := l.takeWhile Char.isDigit
  !ds.isEmpty && (l.drop ds.length).all Char.isAlpha

/-- `/\-\d+[a-z]*$/i` → `''`: remove from the first `'-'` whose tail is
digits-then-letters running to the end. -/
def stripDashTail : List Char → List Char
  | [] => []
  | c :: rest => if c == '-' && dashNumTail rest then [] else c :: stripDashTail rest

/-- `/[^\w\s]/g` → `' '`. -/
def nonWordToSpace (l : List Char) : List Char :=
  l.map (fun c => if isWordChar c || isJsSpace c then c else ' ')

/-- `/\s+/g` → `' '`, on a fuel bounded by the list length (each step consumes
at least one character), keeping the definition kernel-reducible. -/
def collapseSpacesAux : Nat → List Char → List Char
  | 0, l => l
  | _, [] => []
  | fuel + 1, c :: rest =>
      if isJsSpace c then ' ' :: collapseSpacesAux fuel (rest.dropWhile isJsSpace)
      else c :: collapseSpacesAux fuel rest

def collapseSpaces (l : List Char) : List Char :=
  collapseSpacesAux l.length l

/-- `RuleEngineService.cleanMerchantName`: the source's replacement pipeline in
order — processor marker, leading number, company-type words, trailing
location digits, dash suffix, punctuation to spaces, whitespace collapse,
trim.  (The source neither lowercases nor title-cases.) -/
def cleanMerchantName (s : String) : String :=
  if s = "" then ""
  else
    String.mk (jsTrim (collapseSpaces (nonWordToSpace (stripDashTail (stripTrailingDigits
      (stripCompanyWords true (stripLeadingNum (stripProcessorTag s.data))))))))

/-! ### Fuzzy matching and condition evaluation -/

/-- The external string-similarity primitives the engine calls
(`natural.LevenshteinDistance`, `stringSimilarity.compareTwoStrings`,
`natural.Metaphone().process`).  Library internals are outside the repository
and enter the embedding as parameters; everything wrapped around them below is
repository code. -/
structure MatchModel where
  levenshteinDistance : String → String → Nat
  compareTwoStrings : String → String → Rat
  metaphone : String → String

/-- `getLevenshteinSimilarity`: distance normalized against the longer input
(note the source lowercases only for the distance, not for the lengths). -/
def getLevenshteinSimilarity (m : MatchModel) (s1 s2 : String) : Rat :=
  let distance := m.levenshteinDistance s1.toLower s2.toLower
  let maxLength := max s1.length s2.length
  if 0 < maxLength then 1 - (distance : Rat) / (maxLength : Rat) else 1

/-- `getJaroWinklerSimilarity` (delegates to the library). -/
def getJaroWinklerSimilarity (m : MatchModel) (s1 s2 : String) : Rat :=
  m.compareTwoStrings s1.toLower s2.toLower

/-- `getPhoneticSimilarity`: Metaphone codes compared by normalized
Levenshtein distance. -/
def getPhoneticSimilarity (m : MatchModel) (s1 s2 : String) : Rat :=
  let p1 := m.metaphone s1
  let p2 := m.metaphone s2
  let d := m.levenshteinDistance p1 p2
  let maxLength := max p1.length p2.length
  if 0 < maxLength then 1 - (d : Rat) / (maxLength : Rat) else 1

/-- The body of `computeConfidenceScore` after its falsy guard: cleaning, the
short-string exact-match special case, then the 0.4/0.4/0.2 weighted blend of
`DEFAULT_WEIGHTS`.  A truthy non-string `expected` reaches
`cleanMerchantName(expected)`, whose `.replace` call throws. -/
def confidenceBlend (m : MatchModel) (actual : String) : CondValue → Except String Rat
  | .str e =>
      let cleanActual := cleanMerchantName actual
      let cleanExpected := cleanMerchantName e
      if cleanActual.length < 3 || cleanExpected.length < 3 then
        .ok (if cleanActual == cleanExpected then 1 else 0)
      else
        .ok (getLevenshteinSimilarity m cleanActual cleanExpected * (0.4 : Rat)
          + getJaroWinklerSimilarity m cleanActual cleanExpected * (0.4 : Rat)
          + getPhoneticSimilarity m cleanActual cleanExpected * (0.2 : Rat))
  | _ => .error "TypeError: merchantName.replace is not a function"

/-- `computeConfidenceScore`: the `if (!actual || !expected) return 0` guard,
then the blend above. -/
def computeConfidenceScore (m : MatchModel) (actual : String) (expected : CondValue) :
    Except String Rat :=
  if actual = "" || !expected.truthy then .ok 0
  else confidenceBlend m actual expected

/-- `smartStringMatch`: the `!actual` guard, then confidence ≥
`CONFIDENCE_THRESHOLD` (0.7). -/
def smartStringMatch (m : MatchModel) (actual : String) (expected : CondValue) :
    Except String Bool :=
  if actual = "" then .ok false
  else (computeConfidenceScore m actual expected).map (fun score => decide ((0.7 : Rat) ≤ score))

/-- `stringMatch` on a string field: the `!actual` guard, then case-insensitive
`===`; `toLowerCase` on a non-string condition value throws. -/
def stringMatchStr (actual : String) (expected : CondValue) : Except String Bool :=
  if actual = "" then .ok false
  else
    match expected with
    | .str e => .ok (actual.toLower == e.toLower)
    | _ => .error "TypeError: expected.toLowerCase is not a function"

/-- `stringMatch` on an optional field (`undefined` is falsy). -/
def stringMatchOpt (actual : Option String) (expected : CondValue) : Except String Bool :=
  match actual with
  | none => .ok false
  | some a => stringMatchStr a expected

/-- `String.prototype.includes`: contiguous-substring test. -/
def charsContain (hay needle : List Char) : Bool :=
  (List.range (hay.length + 1)).any (fun i => (hay.drop i).take needle.length == needle)

/-- `stringContains`: the `!actual` guard, then case-insensitive `includes`. -/
def stringContainsStr (actual : String) (expected : CondValue) : Except String Bool :=
  if actual = "" then .ok false
  else
    match expected with
    | .str e => .ok (charsContain actual.toLower.data e.toLower.data)
    | _ => .error "TypeError: expected.toLowerCase is not a function"

/-- `conditionValue.some(code => this.stringMatch(...))`: short-circuiting, so
an error in a later element is unreached once some earlier code matches. -/
def someStringMatch (actual : Option String) : List CondValue → Except String Bool
  | [] => .ok false
  | code :: rest => do
      let r ← stringMatchOpt actual code
      if r then return true else someStringMatch actual rest

/-- `RuleEngineService.evaluateCondition`.  (The `originalTransaction`
parameter of the source is never read in the body and is omitted.)  The
default branch logs a warning and returns `false`. -/
def evaluateCondition (m : MatchModel) (conditionType : String) (conditionValue : CondValue)
    (d : TxData) : Except String Bool :=
  if conditionType = "amount_greater_than" then .ok (jsGtNum d.amount conditionValue)
  else if conditionType = "amount_less_than" then .ok (jsLtNum d.amount conditionValue)
  else if conditionType = "currency_equals" then
    .ok (CondValue.beq (.str d.currency) conditionValue)
  else if conditionType = "merchant_name_equals" then
    if !d.isEnriched then smartStringMatch m d.merchantName conditionValue
    else stringMatchStr d.merchantName conditionValue
  else if conditionType = "merchant_name_contains" then
    if !d.isEnriched then
      -- for 'contains' the threshold is `CONFIDENCE_THRESHOLD * 0.8`
      (computeConfidenceScore m d.merchantName conditionValue).map
        (fun score => decide ((0.7 : Rat) * (0.8 : Rat) ≤ score))
    else stringContainsStr d.merchantName conditionValue
  else if conditionType = "merchant_category_equals" then
    stringMatchOpt d.merchantCategory conditionValue
  else if conditionType = "merchant_category_code_equals" then
    stringMatchOpt d.merchantCategoryCode conditionValue
  else if conditionType = "country_code_equals" then
    stringMatchOpt d.countryCode conditionValue
  else if conditionType = "country_code_in" then
    match conditionValue.asArray with
    | some l => someStringMatch d.countryCode l
    | none => .ok false
  else if conditionType = "day_of_week_equals" then
    .ok (CondValue.beq (.num d.dayOfWeek) conditionValue)
  else if conditionType = "day_of_week_in" then
    .ok (match conditionValue.asArray with
         | some l => l.contains (.num d.dayOfWeek)
         | none => false)
  else if conditionType = "hour_of_day_between" then
    .ok (match conditionValue.asArray with
         | some l =>
             l.length == 2 && jsGeNum d.hourOfDay (l.getD 0 .null)
               && jsLeNum d.hourOfDay (l.getD 1 .null)
         | none => false)
  else .ok false

/-- Truthiness of a possibly-absent value. -/
def optTruthy : Option CondValue → Bool
  | some v => v.truthy
  | none => false

/-- `Array.isArray(x) ? x : [x]`. -/
def toArrayWrap (v : CondValue) : List CondValue :=
  match v with
  | .arr l => l
  | _ => [v]

/-- `brands.some(brand => brand.toLowerCase() === cardBrand.toLowerCase())`:
short-circuiting, a non-string brand throws when reached. -/
def someBrandMatch (cardBrand : String) : List CondValue → Except String Bool
  | [] => .ok false
  | .str b :: rest =>
      if b.toLower == cardBrand.toLower then .ok true else someBrandMatch cardBrand rest
  | _ :: _ => .error "TypeError: brand.toLowerCase is not a function"

/-- `RuleEngineService.evaluateCardRule`: each present sub-condition may
short-circuit the whole block under the `or`/`and` operator (any other
operator string only accumulates), otherwise its result accumulates into
`isMatch`. -/
def evaluateCardRule (now : YearMonth) (cardConditions : CondValue) (d : TxData) :
    Except String Bool := do
  let logicalOperator : CondValue :=
    match cardConditions.getField "operator" with
    | some v => if v.truthy then v else .str "or"
    | none => .str "or"
  let isOr := CondValue.beq logicalOperator (.str "or")
  let isAnd := CondValue.beq logicalOperator (.str "and")
  let mut isMatch := false
  let brandsV := cardConditions.getField "brands"
  if optTruthy brandsV && truthyStr d.cardBrand then
    let brandMatch ← someBrandMatch (d.cardBrand.getD "") (toArrayWrap (brandsV.getD .null))
    if isOr && brandMatch then return true
    if isAnd && !brandMatch then return false
    isMatch := isMatch || brandMatch
  let tokensV := cardConditions.getField "highRiskTokens"
  if optTruthy tokensV && truthyStr d.paymentToken then
    let tokenMatch := (toArrayWrap (tokensV.getD .null)).contains (.str (d.paymentToken.getD ""))
    if isOr && tokenMatch then return true
    if isAnd && !tokenMatch then return false
    isMatch := isMatch || tokenMatch
  if optTruthy (cardConditions.getField "requireValidExpiry")
      && (truthyNat d.cardExpiryMonth && truthyNat d.cardExpiryYear) then
    let expiryYear := d.cardExpiryYear.getD 0
    let expiryMonth := d.cardExpiryMonth.getD 0
    let isExpired := decide (expiryYear < now.year)
      || (expiryYear == now.year && decide (expiryMonth < now.month))
    let expiryValid := !isExpired
    if isOr && expiryValid then return true
    if isAnd && !expiryValid then return false
    isMatch := isMatch || expiryValid
  if optTruthy (cardConditions.getField "fingerprintFrequency")
      && truthyStr d.cardFingerprint then
    -- the source stubs the frequency query: `const passesFrequencyCheck = true`
    let passesFrequencyCheck := true
    if isOr && passesFrequencyCheck then return true
    if isAnd && !passesFrequencyCheck then return false
    isMatch := isMatch || passesFrequencyCheck
  return isMatch

/-- The `for (const [conditionType, conditionValue] of Object.entries(...))`
loop of `evaluateRule`: AND semantics, early exit on the first false. -/
def evalConditionList (m : MatchModel) (d : TxData) :
    List (String × CondValue) → Except String Bool
  | [] => .ok true
  | (ct, cv) :: rest => do
      let matchResult ← evaluateCondition m ct cv d
      if !matchResult then return false else evalConditionList m d rest

/-- `RuleEngineService.evaluateRule`. -/
def evaluateRule (m : MatchModel) (now : YearMonth) (tx : Transaction) (rule : Rule) :
    Except String Bool := do
  -- if no conditions are defined, the rule does not match
  if rule.conditions.isEmpty then return false
  let txData := prepareTransactionData tx
  let allMatch ← evalConditionList m txData rule.conditions
  if !allMatch then return false
  -- card-specific rules
  let cardV := (rule.conditions.find? (fun p => p.1 == "card")).map (fun p => p.2)
  if txData.paymentMethod == some "card" && optTruthy cardV then
    let cardMatch ← evaluateCardRule now (cardV.getD .null) txData
    if cardMatch then return true
  return true

/-- `a.priority ≤ b.priority`: the order realized by the comparator
`(a, b) => a.priority - b.priority`. -/
def rulePriorityLE (a b : Rule) : Prop := a.priority ≤ b.priority

instance : DecidableRel rulePriorityLE := fun _ _ => Int.decLe _ _

instance : IsTotal Rule rulePriorityLE := ⟨fun _ _ => Int.le_total _ _⟩

instance : IsTrans Rule rulePriorityLE := ⟨fun _ _ _ => Int.le_trans⟩

/-- `[...rules].sort((a, b) => a.priority - b.priority)`.  ECMAScript `sort` is
stable, and any two stable sorts by the same key coincide; insertion sort
realizes it. -/
def sortRulesByPriority (rules : List Rule) : List Rule :=
  List.insertionSort rulePriorityLE rules

/-- The `RuleResult` row pushed for one rule; the `catch` branch records
`matched = false` and the loop continues. -/
def ruleResultFor (m : MatchModel) (now : YearMonth) (tx : Transaction) (rule : Rule) :
    RuleResult :=
  { ruleId := rule.id
    ruleName := rule.name
    action := rule.action
    matched :=
      match evaluateRule m now tx rule with
      | .ok matched => matched
      | .error _ => false
    conditions := rule.conditions
    evaluationTimeMs := 0 }

/-- `RuleEngineService.evaluateRules`. -/
def evaluateRules (m : MatchModel) (now : YearMonth) (tx : Transaction) (rules : List Rule) :
    List RuleResult :=
  (sortRulesByPriority rules).map (ruleResultFor m now tx)

/-! ### Claims about the rule engine -/

/-- A trivial instantiation of the external similarity libraries, used only to
evaluate concrete scenarios (none of the claims' truth depends on the
libraries' values). -/
def trivialMatchModel : MatchModel :=
  { levenshteinDistance := fun _ _ => 0
    compareTwoStrings := fun _ _ => 0
    metaphone := fun _ => "" }

/-- A fixed evaluation date for concrete scenarios. -/
def sampleNow : YearMonth := ⟨2026, 10⟩

/-- The card block of the spec's end-to-end high-risk-token scenario. -/
def highRiskCardBlock : CondValue := .obj [("highRiskTokens", .arr [.str "tkn_risky123"])]

/-- A global decline rule whose only condition is that card block. -/
def highRiskRule : Rule :=
  { id := "rule-123", name := "High-Risk Card Token", action := .decline, priority := 10,
    conditions := [("card", highRiskCardBlock)] }

/-- The matching card transaction (the repository test's request body). -/
def highRiskTx : Transaction :=
  { transactionId := "tx-highrisk", accountId := "acc-12345", amount := 100, currency := "USD",
    merchantName := "Test Merchant", paymentMethod := some "card",
    paymentToken := some "tkn_risky123", cardBrand := some "visa", cardLast4 := some "4242",
    cardExpiryMonth := some 12, cardExpiryYear := some 2030,
    cardFingerprint := some "fp_risk123" }

/-- **C1** (code bug).  On the spec's end-to-end scenario — payment method
`card`, `paymentToken = "tkn_risky123"`, one global decline rule whose only
condition is the card block listing that token — `evaluateRules` reports the
rule as `matched = false`.  The top-level condition loop feeds the `card` key
to `evaluateCondition`, whose default (unknown-condition-type) branch returns
`false`, so `evaluateRule` bails out before ever reaching its call to
`evaluateCardRule`; that call is unreachable whenever `conditions.card`
exists.  The card sub-evaluator itself would have matched (second conjunct),
and the repository's own test and the spec both expect the decline. -/
theorem C1_high_risk_token_rule_never_matches :
    (evaluateRules trivialMatchModel sampleNow highRiskTx [highRiskRule]).map
        (fun r => (r.ruleId, r.matched)) = [("rule-123", false)] ∧
    evaluateCardRule sampleNow highRiskCardBlock (prepareTransactionData highRiskTx)
        = .ok true ∧
    evaluateRule trivialMatchModel sampleNow highRiskTx highRiskRule = .ok false :=
  ⟨rfl, rfl, rfl⟩

/-- **C2**.  For every transaction and rule batch: one result per input rule;
the results follow the stable ascending-priority order of the sort (a
permutation of the input, sorted by `priority`, the results' `ruleId`s listed
in exactly that order); and a rule whose evaluation errors is recorded as
`matched = false` at its position instead of aborting the batch — the
evaluator is total, so nothing is thrown to the caller. -/
theorem C2_one_result_per_rule_in_priority_order (m : MatchModel) (now : YearMonth)
    (tx : Transaction) (rules : List Rule) :
    (evaluateRules m now tx rules).length = rules.length ∧
    (sortRulesByPriority rules).Perm rules ∧
    List.Sorted rulePriorityLE (sortRulesByPriority rules) ∧
    (evaluateRules m now tx rules).map (fun r => (r.ruleId, r.ruleName, r.action))
      = (sortRulesByPriority rules).map (fun r => (r.id, r.name, r.action)) ∧
    (∀ (i : Nat) (h₁ : i < (sortRulesByPriority rules).length)
        (h₂ : i < (evaluateRules m now tx rules).length) (e : String),
      evaluateRule m now tx ((sortRulesByPriority rules).get ⟨i, h₁⟩) = .error e →
      ((evaluateRules m now tx rules).get ⟨i, h₂⟩).matched = false) := by
  refine ⟨?_, List.perm_insertionSort _ _, List.sorted_insertionSort _ _, ?_, ?_⟩
  · rw [evaluateRules, List.length_map, sortRulesByPriority]
    exact (List.perm_insertionSort _ _).length_eq
  · rw [evaluateRules, List.map_map]
    rfl
  · intro i h₁ h₂ e herr
    have hget : (evaluateRules m now tx rules).get ⟨i, h₂⟩
        = ruleResultFor m now tx ((sortRulesByPriority rules).get ⟨i, h₁⟩) := by
      simp [evaluateRules]
    rw [hget]
    simp only [ruleResultFor, herr]

/-- A rule whose condition value makes the evaluator throw (a number reaches
`expected.toLowerCase()`). -/
def errorValueRule : Rule :=
  { id := "rule-err", name := "Bad Condition Value", action := .decline, priority := 5,
    conditions := [("merchant_category_equals", .num 5)] }

/-- A benign rule with a lower priority number (evaluated first). -/
def currencyRule : Rule :=
  { id := "rule-first", name := "Euro Only", action := .review, priority := 1,
    conditions := [("currency_equals", .str "EUR")] }

/-- A transaction with a truthy merchant category, so the error rule reaches
the throwing call. -/
def plainTx : Transaction :=
  { transactionId := "tx-plain", accountId := "acc-9", amount := 50, currency := "USD",
    merchantName := "Shop", merchantCategory := some "food" }

/-- **C2** (witness): a two-rule batch, one rule erroring; the batch still has
two results and the erroring rule's slot reports `matched = false`. -/
theorem C2_witness :
    (evaluateRules trivialMatchModel sampleNow plainTx [errorValueRule, currencyRule]).length
      = 2 ∧
    ((evaluateRules trivialMatchModel sampleNow plainTx [errorValueRule, currencyRule]).get
        ⟨1, by decide⟩).matched = false := by
  have h := C2_one_result_per_rule_in_priority_order trivialMatchModel sampleNow plainTx
    [errorValueRule, currencyRule]
  exact ⟨h.1.trans rfl,
    h.2.2.2.2 1 (by decide) (by decide) "TypeError: expected.toLowerCase is not a function" rfl⟩

/-- **C10**.  Every result of `evaluateRules` whose echoed conditions map is
empty has `matched = false`: an unconditioned rule never matches. -/
theorem C10_empty_conditions_never_match (m : MatchModel) (now : YearMonth) (tx : Transaction)
    (rules : List Rule) (res : RuleResult)
    (hres : res ∈ evaluateRules m now tx rules) (hempty : res.conditions = []) :
    res.matched = false := by
  rw [evaluateRules] at hres
  obtain ⟨rule, _, rfl⟩ := List.mem_map.mp hres
  have hc : rule.conditions = [] := hempty
  have hrule : evaluateRule m now tx rule = .ok false := by
    simp only [evaluateRule, hc, List.isEmpty_nil, if_true]
    rfl
  simp only [ruleResultFor, hrule]

/-- A rule with an empty conditions map. -/
def bareRule : Rule :=
  { id := "rule-bare", name := "No Conditions", action := .approve, priority := 3,
    conditions := [] }

/-- **C10** (witness): the unconditioned rule's result is unmatched. -/
theorem C10_witness :
    ((evaluateRules trivialMatchModel sampleNow plainTx [bareRule]).get
        ⟨0, by decide⟩).matched = false :=
  C10_empty_conditions_never_match trivialMatchModel sampleNow plainTx [bareRule] _
    (List.get_mem _ _ _) rfl

/-! ### C9: short merchant strings -/

theorem computeConfidenceScore_short (m : MatchModel) (a e : String)
    (ha : a ≠ "") (he : e ≠ "")
    (h1 : (cleanMerchantName a).length < 3 ∨ (cleanMerchantName e).length < 3) :
    computeConfidenceScore m a (.str e)
      = .ok (if cleanMerchantName a == cleanMerchantName e then 1 else 0) := by
  have hg : ¬((a = "" || !(CondValue.str e).truthy) = true) := by
    simp [CondValue.truthy, ha, he]
  have hshort : ((cleanMerchantName a).length < 3 || (cleanMerchantName e).length < 3) = true := by
    rcases h1 with h | h <;> simp [h]
  rw [computeConfidenceScore, if_neg hg, confidenceBlend]
  rw [if_pos hshort]

theorem smartStringMatch_short (m : MatchModel) (a e : String)
    (ha : a ≠ "") (he : e ≠ "")
    (h1 : (cleanMerchantName a).length < 3 ∨ (cleanMerchantName e).length < 3) :
    smartStringMatch m a (.str e) = .ok (cleanMerchantName a == cleanMerchantName e) := by
  rw [smartStringMatch, if_neg ha, computeConfidenceScore_short m a e ha he h1]
  by_cases heq : (cleanMerchantName a == cleanMerchantName e) = true
  · rw [if_pos heq, heq]
    simp only [Except.map, Except.ok.injEq]
    rw [decide_eq_true_eq]
    norm_num
  · rw [if_neg heq, Bool.not_eq_true] at *
    rw [heq]
    simp only [Except.map, Except.ok.injEq]
    rw [decide_eq_false_iff_not]
    norm_num

/-- **C9** (amended).  For an unenriched transaction whose merchant name is a
non-empty string, and a non-empty condition string, when both clean to strings
shorter than 3 characters, `merchant_name_equals` and `merchant_name_contains`
both match exactly when the cleaned strings are equal.  (For a JS-falsy
merchant name or condition value the `!actual || !expected` guards force a
non-match even when both clean to the same short string — see the
counterexample.) -/
theorem C9_short_merchant_strings_exact_match (m : MatchModel) (tx : Transaction) (e : String)
    (henr : tx.enrichedData = none) (hname : tx.merchantName ≠ "") (hval : e ≠ "")
    (hshortA : (cleanMerchantName tx.merchantName).length < 3)
    (_hshortE : (cleanMerchantName e).length < 3) :
    evaluateCondition m "merchant_name_equals" (.str e) (prepareTransactionData tx)
      = .ok (cleanMerchantName tx.merchantName == cleanMerchantName e) ∧
    evaluateCondition m "merchant_name_contains" (.str e) (prepareTransactionData tx)
      = .ok (cleanMerchantName tx.merchantName == cleanMerchantName e) := by
  have hmn : (prepareTransactionData tx).merchantName = tx.merchantName := by
    simp [prepareTransactionData, henr, jsOrStr]
  have hen : (prepareTransactionData tx).isEnriched = false := by
    simp [prepareTransactionData, henr]
  constructor
  · rw [evaluateCondition, if_neg (by decide), if_neg (by decide), if_neg (by decide),
      if_pos rfl, hen]
    rw [if_pos (by decide), hmn]
    exact smartStringMatch_short m tx.merchantName e hname hval (Or.inl hshortA)
  · rw [evaluateCondition, if_neg (by decide), if_neg (by decide), if_neg (by decide),
      if_neg (by decide), if_pos rfl, hen]
    rw [if_pos (by decide), hmn]
    rw [computeConfidenceScore_short m tx.merchantName e hname hval (Or.inl hshortA)]
    by_cases heq : (cleanMerchantName tx.merchantName == cleanMerchantName e) = true
    · rw [if_pos heq, heq]
      simp only [Except.map, Except.ok.injEq]
      rw [decide_eq_true_eq]
      norm_num
    · rw [if_neg heq, Bool.not_eq_true] at *
      rw [heq]
      simp only [Except.map, Except.ok.injEq]
      rw [decide_eq_false_iff_not]
      norm_num

/-- A transaction whose merchant name is the empty string (JS-falsy). -/
def emptyNameTx : Transaction :=
  { transactionId := "tx-empty", accountId := "acc-1", amount := 10, currency := "USD",
    merchantName := "" }

/-- **C9** (counterexample).  With merchant name `""` and condition value `""`
— both of which clean to the same string `""`, of length < 3 — the condition
does *not* match: the `!actual` guard of `smartStringMatch` returns `false`
before the short-string exact-match comparison is reached, so matching does
not reduce to cleaned-string equality for every sub-3-character pair. -/
theorem C9_counterexample :
    evaluateCondition trivialMatchModel "merchant_name_equals" (.str "")
        (prepareTransactionData emptyNameTx) = .ok false ∧
    cleanMerchantName emptyNameTx.merchantName = cleanMerchantName "" ∧
    (cleanMerchantName "").length < 3 :=
  ⟨rfl, rfl, by decide⟩

/-- A transaction with a short merchant name. -/
def shortNameTx : Transaction :=
  { transactionId := "tx-short", accountId := "acc-2", amount := 10, currency := "USD",
    merchantName := "A1" }

/-- **C9** (witness): `"A1"` vs `"A1."` — both clean to `"A1"` (length 2), and
both condition types match. -/
theorem C9_witness :
    evaluateCondition trivialMatchModel "merchant_name_equals" (.str "A1.")
        (prepareTransactionData shortNameTx) = .ok true ∧
    evaluateCondition trivialMatchModel "merchant_name_contains" (.str "A1.")
        (prepareTransactionData shortNameTx) = .ok true := by
  have h := C9_short_merchant_strings_exact_match trivialMatchModel shortNameTx "A1." rfl
    (by decide) (by decide) (by decide) (by decide)
  have heq : (cleanMerchantName shortNameTx.merchantName == cleanMerchantName "A1.") = true := by
    decide
  exact ⟨h.1.trans (by rw [heq]), h.2.trans (by rw [heq])⟩

/-! ### C8: Luhn validation -/

/-- The checksum described by the claim's own words (a refinement-side
definition, deliberately written from the claim, not from the code): the digit
at offset `i` from the rightmost is doubled when `i` is odd — i.e. every
second digit starting from the second-rightmost — with 9 subtracted when the
double exceeds 9, and all transformed digits are summed. -/
def luhnSpecSumFrom (i : Nat) : List Nat → Nat
  | [] => 0
  | d :: rest =>
      (if i % 2 = 1 then (if d * 2 > 9 then d * 2 - 9 else d * 2) else d)
        + luhnSpecSumFrom (i + 1) rest

/-- The claim's characterisation of PAN validity: 13–19 decimal digits whose
Luhn checksum is divisible by 10. -/
def luhnSpecValid (s : String) : Prop :=
  13 ≤ s.length ∧ s.length ≤ 19 ∧ (∀ c ∈ s.data, c.isDigit = true) ∧
    luhnSpecSumFrom 0 (s.data.reverse.map (fun c => c.toNat - 48)) % 10 = 0

theorem luhnSum_eq_specFrom (l : List Nat) :
    ∀ (i : Nat) (b : Bool), b = decide (i % 2 = 1) → luhnSum l b = luhnSpecSumFrom i l := by
  induction l with
  | nil => intro i b _; rfl
  | cons d rest ih =>
      intro i b hb
      rw [luhnSum, luhnSpecSumFrom]
      have hnext : (!b) = decide ((i + 1) % 2 = 1) := by
        subst hb
        by_cases hi : i % 2 = 1 <;> simp [hi] <;> omega
      rw [ih (i + 1) (!b) hnext]
      subst hb
      by_cases hi : i % 2 = 1
      · rw [if_pos (by simp [hi]), if_pos hi]
      · rw [if_neg (by simp [hi]), if_neg hi]

/-- **C8**.  `isValidPan` accepts exactly the strings the claim describes:
13–19 decimal digits with a Luhn checksum (doubling every second digit from
the rightmost, subtracting 9 from doubled digits above 9) divisible by 10; in
particular `"4242424242424242"` is valid and `"4242424242424241"` is not. -/
theorem C8_isValidPan_iff_luhn :
    (∀ s : String, isValidPan s = true ↔ luhnSpecValid s) ∧
    isValidPan "4242424242424242" = true ∧
    isValidPan "4242424242424241" = false := by
  refine ⟨?_, by decide, by decide⟩
  intro s
  rw [isValidPan, luhnSpecValid]
  rw [show luhnSum (s.data.reverse.map (fun c => c.toNat - 48)) false
      = luhnSpecSumFrom 0 (s.data.reverse.map (fun c => c.toNat - 48)) from
    luhnSum_eq_specFrom _ 0 false rfl]
  simp only [Bool.and_eq_true, decide_eq_true_eq, List.all_eq_true, beq_iff_eq]
  tauto

/-- **C8** (witness): the claim-side predicate holds of the valid example, via
the equivalence. -/
theorem C8_witness : luhnSpecValid "4242424242424242" :=
  (C8_isValidPan_iff_luhn.1 "4242424242424242").mp C8_isValidPan_iff_luhn.2.1

/-! ## RuleEngineService: behavioral anomaly detection

Embeds `evaluateBehavioralPatterns` and its six checks.  The diagnostic
`conditions` payloads echoed in behavioral results are kept only where they
stay in ℚ (the z-score and standard deviation are irrational in general and
are not echoed; no claim reads them). -/

/-- The account fields read by the behavioral checks.  `usualCountriesJson`
models `account.metadata?.usualCountries` by the outcome of `JSON.parse` on
the stored string: absent, parsed to a string list, or malformed (the inner
`try`/`catch` turns a parse failure into the empty list). -/
structure Account where
  id : String
  status : String := "active"
  balance : Rat := 0
  usualCountriesJson : Option (Except String (List String)) := none

/-- The database reads made during behavioral analysis, each of which can
reject at runtime: the recent-history query of
`getAccountTransactionHistory`, and the two velocity `count` queries of
`detectVelocityAnomaly`. -/
structure BehavioralEnv where
  history : Except String (List Transaction)
  cardVelocityCount : Except String Nat
  accountVelocityCount : Except String Nat

/-- `detectNewPaymentMethod`. -/
def detectNewPaymentMethod (tx : Transaction) (history : List Transaction) :
    Option RuleResult :=
  if !truthyStr tx.paymentToken && !truthyStr tx.cardFingerprint then none
  else
    let isNewCard := !history.any (fun h =>
      (truthyStr tx.cardFingerprint && h.cardFingerprint == tx.cardFingerprint)
        || (truthyStr tx.paymentToken && h.paymentToken == tx.paymentToken))
    if isNewCard && history.any (fun h => h.paymentMethod == some "card") then
      some { ruleId := "behavioral_new_card", ruleName := "New Payment Method Detection",
             action := .review, matched := true,
             conditions := [("isNewCard", .bool true), ("hasCardHistory", .bool true)],
             evaluationTimeMs := 0 }
    else none

/-- `detectAmountAnomaly`.  The comparison `zScore > 3` with
`zScore = (amount − mean) / (stdDev || 1)` is expressed without the square
root so it stays in ℚ: when the variance is 0 (`stdDev || 1` = 1) it is
`amount − mean > 3`, otherwise `amount − mean > 0` and
`(amount − mean)² > 9 · variance`. -/
def detectAmountAnomaly (tx : Transaction) (history : List Transaction) :
    Option RuleResult :=
  if history.length < 3 then none
  else
    let amounts := history.map (fun h => h.amount)
    let average := amounts.sum / (amounts.length : Rat)
    let avgSquareDiff :=
      (amounts.map (fun a => (a - average) * (a - average))).sum / (amounts.length : Rat)
    let flagged :=
      if avgSquareDiff = 0 then decide (3 < tx.amount - average)
      else decide (0 < tx.amount - average)
        && decide (9 * avgSquareDiff < (tx.amount - average) * (tx.amount - average))
    if flagged then
      some { ruleId := "behavioral_amount_anomaly", ruleName := "Transaction Amount Anomaly",
             action := .review, matched := true,
             conditions := [("average", .num average), ("transactionAmount", .num tx.amount)],
             evaluationTimeMs := 0 }
    else none

/-- `detectMerchantCategoryAnomaly`.  The `Set` of used category codes is
modelled by `eraseDups` (insertion order, first occurrence). -/
def detectMerchantCategoryAnomaly (tx : Transaction) (history : List Transaction) :
    Option RuleResult :=
  if !truthyStr tx.merchantCategoryCode || history.length < 5 then none
  else
    let usedCategories := ((history.filter (fun h => truthyStr h.merchantCategoryCode)).map
      (fun h => h.merchantCategoryCode.getD "")).eraseDups
    if !usedCategories.contains (tx.merchantCategoryCode.getD "") then
      some { ruleId := "behavioral_new_merchant_category", ruleName := "New Merchant Category",
             action := .review, matched := true,
             conditions := [("newCategory", .str (tx.merchantCategoryCode.getD "")),
               ("usedCategories", .arr (usedCategories.map CondValue.str))],
             evaluationTimeMs := 0 }
    else none

/-- `detectLocationAnomaly`: stored usual countries when present, otherwise
countries appearing in at least `max(1, ceil(10%))` of the history. -/
def detectLocationAnomaly (tx : Transaction) (history : List Transaction)
    (account : Account) : Option RuleResult :=
  if !truthyStr tx.countryCode then none
  else
    let fromMeta : List String :=
      match account.usualCountriesJson with
      | some (.ok l) => l
      | some (.error _) => []
      | none => []
    let usualCountries :=
      if fromMeta.isEmpty && 0 < history.length then
        let counted := history.filter (fun h => truthyStr h.countryCode)
        let codes := counted.map (fun h => h.countryCode.getD "")
        let minCount := max 1 ((history.length : Rat) * (0.1 : Rat)).ceil.toNat
        codes.eraseDups.filter (fun cc => minCount ≤ codes.count cc)
      else fromMeta
    if !usualCountries.isEmpty && !usualCountries.contains (tx.countryCode.getD "") then
      some { ruleId := "behavioral_unusual_country",
             ruleName := "Unusual Transaction Location",
             action := .review, matched := true,
             conditions := [("transactionCountry", .str (tx.countryCode.getD "")),
               ("usualCountries", .arr (usualCountries.map CondValue.str))],
             evaluationTimeMs := 0 }
    else none

/-- `detectTimePatternAnomaly`: current hour under 5% of history. -/
def detectTimePatternAnomaly (tx : Transaction) (history : List Transaction) :
    Option RuleResult :=
  if history.length < 10 then none
  else
    let txHour := tx.createdAt.hours
    let currentHourCount := (history.filter (fun h => h.createdAt.hours == txHour)).length
    let hourPercentage := ((currentHourCount : Rat) / (history.length : Rat)) * 100
    if hourPercentage < 5 then
      some { ruleId := "behavioral_unusual_time", ruleName := "Unusual Transaction Time",
             action := .review, matched := true,
             conditions := [("transactionHour", .num txHour),
               ("hourPercentage", .num hourPercentage)],
             evaluationTimeMs := 0 }
    else none

/-- `detectVelocityAnomaly`: the two `count` queries live in the environment;
a card-velocity hit (same fingerprint, 30-minute window, threshold 3) returns
before the account check (60 minutes, threshold 5) is made. -/
def detectVelocityAnomaly (env : BehavioralEnv) (tx : Transaction) :
    Except String (Option RuleResult) := do
  if truthyStr tx.cardFingerprint then
    let cardTxCount ← env.cardVelocityCount
    if 3 ≤ cardTxCount then
      return some
        { ruleId := "velocity_card"
          ruleName := "Card Velocity Check"
          action := .review
          matched := true
          conditions := [("cardFingerprint", .str (tx.cardFingerprint.getD "")),
            ("timeWindowMinutes", .num 30), ("threshold", .num 3), ("count", .num cardTxCount)]
          evaluationTimeMs := 0 }
  let accountTxCount ← env.accountVelocityCount
  if 5 ≤ accountTxCount then
    return some
      { ruleId := "velocity_account"
        ruleName := "Account Velocity Check"
        action := .review
        matched := true
        conditions := [("accountId", .str tx.accountId), ("timeWindowMinutes", .num 60),
          ("threshold", .num 5), ("count", .num accountTxCount)]
        evaluationTimeMs := 0 }
  return none

/-- The body of `evaluateBehavioralPatterns`'s single `try` block, in source
order. -/
def behavioralChecksRun (env : BehavioralEnv) (tx : Transaction) (account : Account) :
    Except String (List RuleResult) := do
  let txHistory ← env.history
  let r1 := detectNewPaymentMethod tx txHistory
  let r2 := detectAmountAnomaly tx txHistory
  let r3 := detectMerchantCategoryAnomaly tx txHistory
  let r4 := detectLocationAnomaly tx txHistory account
  let r5 := detectTimePatternAnomaly tx txHistory
  let r6 ← detectVelocityAnomaly env tx
  return r1.toList ++ r2.toList ++ r3.toList ++ r4.toList ++ r5.toList ++ r6.toList

/-- `RuleEngineService.evaluateBehavioralPatterns`: every check runs inside one
`try`; the `catch` logs the error and returns `[]`. -/
def evaluateBehavioralPatterns (env : BehavioralEnv) (tx : Transaction)
    (account : Account) : List RuleResult :=
  match behavioralChecksRun env tx account with
  | .ok results => results
  | .error _ => []

theorem exceptBind_ok {ε α β : Type} (a : α) (f : α → Except ε β) :
    (Except.ok a >>= f) = f a := rfl

theorem exceptBind_error {ε α β : Type} (e : ε) (f : α → Except ε β) :
    ((Except.error e : Except ε α) >>= f) = Except.error e := rfl

/-- **C3** (amended).  The detector never throws (it is a total function), but
it is not fail-soft per check: if the history query fails, or any reached
check fails (the velocity check's `count` queries are the fallible ones), the
single `catch` returns the empty list, discarding the results every
non-failing check had already produced and skipping the remaining checks;
only when nothing fails does it return the six checks' combined results. -/
theorem C3_error_discards_all_results (env : BehavioralEnv) (tx : Transaction)
    (account : Account) :
    (∀ e, env.history = .error e → evaluateBehavioralPatterns env tx account = []) ∧
    (∀ hist, env.history = .ok hist →
      (∀ e, detectVelocityAnomaly env tx = .error e →
        evaluateBehavioralPatterns env tx account = []) ∧
      (∀ vr, detectVelocityAnomaly env tx = .ok vr →
        evaluateBehavioralPatterns env tx account =
          (detectNewPaymentMethod tx hist).toList ++ (detectAmountAnomaly tx hist).toList
            ++ (detectMerchantCategoryAnomaly tx hist).toList
            ++ (detectLocationAnomaly tx hist account).toList
            ++ (detectTimePatternAnomaly tx hist).toList ++ vr.toList)) := by
  refine ⟨?_, ?_⟩
  · intro e he
    simp [evaluateBehavioralPatterns, behavioralChecksRun, he, exceptBind_error]
  · intro hist hh
    constructor
    · intro e hv
      simp [evaluateBehavioralPatterns, behavioralChecksRun, hh, hv, exceptBind_ok,
        exceptBind_error]
    · intro vr hv
      simp [evaluateBehavioralPatterns, behavioralChecksRun, hh, hv, exceptBind_ok]

/-- Five past transactions in one merchant category. -/
def groceryHistory : List Transaction :=
  (List.range 5).map (fun i =>
    { transactionId := "h" ++ natKey i, accountId := "acc-12345", amount := 1,
      currency := "USD", merchantName := "Grocer", merchantCategoryCode := some "5411" })

/-- A transaction in a never-seen category, with a card fingerprint (so the
card-velocity query is reached). -/
def casinoTx : Transaction :=
  { transactionId := "tx-casino", accountId := "acc-12345", amount := 1, currency := "USD",
    merchantName := "Casino", merchantCategoryCode := some "7995",
    cardFingerprint := some "fp-1" }

def sampleAccount : Account := { id := "acc-12345" }

/-- An environment whose card-velocity `count` query rejects while the history
query succeeds. -/
def failingVelocityEnv : BehavioralEnv :=
  { history := .ok groceryHistory, cardVelocityCount := .error "connection reset",
    accountVelocityCount := .ok 0 }

/-- **C3** (counterexample).  With the card-velocity query failing, the
detector returns `[]` even though the merchant-category check — which does not
fail — produces a result on this history: the claim that every non-failing
check's results are returned is false. -/
theorem C3_counterexample :
    evaluateBehavioralPatterns failingVelocityEnv casinoTx sampleAccount = [] ∧
    (detectMerchantCategoryAnomaly casinoTx groceryHistory).isSome = true :=
  ⟨rfl, rfl⟩

/-- An environment where every query succeeds (empty history, zero counts). -/
def quietEnv : BehavioralEnv :=
  { history := .ok [], cardVelocityCount := .ok 0, accountVelocityCount := .ok 0 }

/-- **C3** (witness): the amended theorem's no-failure branch at a concrete
quiet environment — all six checks run and none fires. -/
theorem C3_witness :
    evaluateBehavioralPatterns quietEnv plainTx sampleAccount = [] := by
  have h := ((C3_error_discards_all_results quietEnv plainTx sampleAccount).2 [] rfl).2 none rfl
  exact h.trans rfl

end CardAuth
